import Mathlib

/-!
Verification of the self-serve code-review tool's core (rule engine,
analyzer orchestrator, scoring engine, report selection) as a shallow
embedding of the JavaScript sources in `lib/index.js`, `lib/rule-engine.js`
(bundled in `lib/report-generator.js`), `lib/analyzer-base.js` and
`bin/cli.js`, plus the alternate orchestrator copy that carries
`calculateWeightedTestScore`.

JavaScript numbers are modelled as `Option ℚ` where `none` stands for NaN
(the rationals suffice because every numeric path in scope is exact
decimal arithmetic); duck-typed finding records are modelled as a record
of optional fields, `none` meaning the field is absent.
-/

/-- JS-style value of a duck-typed `statements` field: either a plain
number (as produced by `checkTests`/`checkTestCases`, where `statements`
is the percentage itself) or an object `{pct}` (as produced by the
jest-table parser in `checkTests`' `testResults`). -/
inductive StatVal where
  | num (q : ℚ)
  | obj (pct : ℚ)
  deriving Repr, DecidableEq

/-- JS-style value of a duck-typed `coverage` field: a plain number
(`checkTests`' top-level `coverage`) or an object with an optional
`statements` member (`checkCoverage`, `checkTestCases`). -/
inductive CoverageVal where
  | num (q : ℚ)
  | obj (statements : Option StatVal)
  deriving Repr, DecidableEq

/-- Duck-typed analyzer Finding record. Each field is `Option`-valued;
`none` means the JS property is absent (`undefined`). List-valued JS
fields are modelled by their length (only lengths are read by the
scoring code), except `testQuality` whose entries record whether
`quality === 'POOR'`. -/
structure Finding where
  success : Option Bool := none
  error : Option String := none
  errors : Option ℕ := none
  warnings : Option ℕ := none
  vulnerabilities : Option ℕ := none
  coverage : Option CoverageVal := none
  score : Option ℚ := none
  circularDependencies : Option Bool := none
  outdatedPackages : Option Bool := none
  securityVulnerabilities : Option Bool := none
  performanceIssues : Option ℕ := none
  antiPatterns : Option ℕ := none
  bugs : Option ℕ := none
  potentialIssues : Option ℕ := none
  securityRisks : Option ℕ := none
  missingTests : Option ℕ := none
  testQuality : Option (List Bool) := none
  weightedCoverage : Option ℚ := none
  deriving Repr, DecidableEq

/-- The findings map: a JS object modelled as an insertion-ordered
association list over string keys. -/
abbrev Store := List (String × Finding)

/-- JS object property read: first (and only) binding of the key. -/
def getk : Store → String → Option Finding
  | [], _ => none
  | p :: rest, k => if p.1 = k then some p.2 else getk rest k

/-- JS object property assignment: overwrite in place if the key exists,
else append (insertion order preserved). -/
def setk : Store → String → Finding → Store
  | [], k, v => [(k, v)]
  | p :: rest, k, v =>
      if p.1 = k then (k, v) :: rest else p :: setk rest k v

/-- The finding stored by the orchestrator's catch-block:
`{success: false, error: message}` (`lib/index.js`, `runAnalyzers`). -/
def failFinding (msg : String) : Finding :=
  { success := some false, error := some msg }

/-- The `switch (analyzerName)` of `runAnalyzers` in `lib/index.js`:
each recognized analyzer name paired with the findings-map key its
successful result is stored under. -/
def analyzerKeyMap : List (String × String) :=
  [("eslint", "eslint"), ("typescript", "typescript"),
   ("security", "security"), ("tests", "tests"),
   ("complexity", "complexity"), ("custom-rules", "customRules"),
   ("dependencies", "dependencies"), ("coverage", "coverage"),
   ("performance", "performance"), ("architecture", "architecture"),
   ("bug-detection", "bugDetection"), ("test-cases", "testCases")]

/-- Association-list lookup (first match). -/
def alookup : List (String × String) → String → Option String
  | [], _ => none
  | p :: rest, k => if p.1 = k then some p.2 else alookup rest k

/-- Key under which a successful run of analyzer `n` is stored; `none`
for an unrecognized analyzer name (which `runAnalyzers` skips with a
warning). -/
def camelKey (n : String) : Option String :=
  alookup analyzerKeyMap n

/-- One iteration of `runAnalyzers`' loop: execute the analyzer behind a
recognized name and store its result (successes under `camelKey`,
thrown errors under the requested name itself); skip unknown names. -/
def runStep (impl : String → Except String Finding) (st : Store) (n : String) : Store :=
  match camelKey n with
  | none => st
  | some k =>
      match impl n with
      | Except.ok f => setk st k f
      | Except.error m => setk st n (failFinding m)

/-- `runAnalyzers` of `lib/index.js`, with the individual analyzer
executions abstracted as `impl : name → Except error Finding`
(`Except.error` models a thrown/rejected analyzer). The loop never
propagates an exception: it is a total fold. -/
def runAnalyzers (impl : String → Except String Finding) (names : List String) : Store :=
  names.foldl (runStep impl) []

/- ### basic store lemmas -/

theorem getk_setk_same (st : Store) (k : String) (v : Finding) :
    getk (setk st k v) k = some v := by
  induction st with
  | nil => simp [setk, getk]
  | cons p rest ih =>
      by_cases h : p.1 = k
      · simp [setk, h, getk]
      · simpa [setk, h, getk] using ih

theorem getk_setk_other (st : Store) (k k' : String) (v : Finding) (h : k' ≠ k) :
    getk (setk st k v) k' = getk st k' := by
  have hkk : ¬ (k = k') := fun h' => h h'.symm
  induction st with
  | nil =>
      simp [setk, getk, hkk]
  | cons p rest ih =>
      by_cases hp : p.1 = k
      · have hp' : ¬ (p.1 = k') := by
          rw [hp]; exact hkk
        simp [setk, hp, getk, hp', hkk]
      · by_cases hp' : p.1 = k'
        · simp [setk, hp, getk, hp', h]
        · simpa [setk, hp, getk, hp'] using ih

/- ### JS number algebra (`none` = NaN) -/

/-- Lift a binary rational operation over possibly-NaN JS numbers. -/
def jbin (op : ℚ → ℚ → ℚ) : Option ℚ → Option ℚ → Option ℚ
  | some a, some b => some (op a b)
  | _, _ => none

def jadd (a b : Option ℚ) : Option ℚ := jbin (fun x y => x + y) a b

def jmul (a b : Option ℚ) : Option ℚ := jbin (fun x y => x * y) a b

def jdiv (a b : Option ℚ) : Option ℚ := jbin (fun x y => x / y) a b

/-- `Math.min` (NaN-propagating). -/
def jmin (a b : Option ℚ) : Option ℚ := jbin min a b

/-- `Math.max` (NaN-propagating). -/
def jmax (a b : Option ℚ) : Option ℚ := jbin max a b

/-- `Math.round`: round half toward positive infinity; NaN stays NaN. -/
def jround (a : Option ℚ) : Option ℤ :=
  a.map (fun q => ⌊q + 1/2⌋)

/-- One deduction of the `dependencies` policy: subtract `amt` when the
sub-check is present and its `success` is falsy. -/
def depPenalty (o : Option Bool) (amt : ℚ) : ℚ :=
  match o with
  | some b => if b then 0 else amt
  | none => 0

/-- `findings.success ? 100 : 0`. -/
def successScore (f : Finding) : Option ℚ :=
  if f.success.getD false then some 100 else some 0

/-- The `test-cases` running score before the coverage clamp:
`100 - missingTests.length×10 - poorQualityTests×20`. -/
def testCasesBase (f : Finding) : ℚ :=
  100 - ((f.missingTests.getD 0 : ℕ) : ℚ) * 10
    - ((((f.testQuality.getD []).filter (fun b => b)).length : ℕ) : ℚ) * 20

/-- `getAnalyzerScore` of `lib/index.js` (lines 208–295): the
per-analyzer sub-score policies, translated case by case including JS
falsiness of `0`/absent fields and the NaN results of number/object
shape mismatches (`Math.min(100, object)` and `x.pct` on a number). -/
def getAnalyzerScore (analyzer : String) (f : Finding) : Option ℚ :=
  if analyzer = "eslint" then
    let issues : ℚ := ((f.errors.getD 0 : ℕ) : ℚ) + ((f.warnings.getD 0 : ℕ) : ℚ) * (1/2)
    some (max 0 (100 - issues * 2))
  else if analyzer = "typescript" then
    -- `findings.errors > 0 ? 0 : 100`; `undefined > 0` is false
    match f.errors with
    | some e => if e > 0 then some 0 else some 100
    | none => some 100
  else if analyzer = "security" then
    some (max 0 (100 - ((f.vulnerabilities.getD 0 : ℕ) : ℚ) * 20))
  else if analyzer = "tests" then
    -- `const coverage = findings.coverage || 0; return Math.min(100, coverage)`
    match f.coverage with
    | none => some (min 100 0)
    | some (CoverageVal.num q) => some (min 100 q)
    | some (CoverageVal.obj _) => none   -- Math.min(100, object) = NaN
  else if analyzer = "complexity" then
    -- `findings.score || 100` (0 is falsy)
    match f.score with
    | some q => if q = 0 then some 100 else some q
    | none => some 100
  else if analyzer = "dependencies" then
    some (max 0 (100 - depPenalty f.circularDependencies 30
      - depPenalty f.outdatedPackages 20
      - depPenalty f.securityVulnerabilities 50))
  else if analyzer = "coverage" then
    -- `if (findings.coverage && findings.coverage.statements)` then
    -- `Math.min(100, findings.coverage.statements.pct)` else success-flag
    match f.coverage with
    | some (CoverageVal.obj (some (StatVal.obj pct))) => some (min 100 pct)
    | some (CoverageVal.obj (some (StatVal.num q))) =>
        if q = 0 then successScore f
        else none                        -- `.pct` of a number = undefined → NaN
    | _ => successScore f
  else if analyzer = "performance" then
    some (max 0 (100 - ((f.performanceIssues.getD 0 : ℕ) : ℚ) * 10))
  else if analyzer = "architecture" then
    some (max 0 (100 - ((f.antiPatterns.getD 0 : ℕ) : ℚ) * 15))
  else if analyzer = "bug-detection" then
    let s : ℚ := 100 - ((f.bugs.getD 0 : ℕ) : ℚ) * 25
      - ((f.potentialIssues.getD 0 : ℕ) : ℚ) * 5
      - ((f.securityRisks.getD 0 : ℕ) : ℚ) * 30
      - ((f.performanceIssues.getD 0 : ℕ) : ℚ) * 10
    some (max 0 s)
  else if analyzer = "test-cases" then
    jmax (some 0)
      (match f.coverage with
       | some (CoverageVal.obj (some (StatVal.obj pct))) =>
           some (min (testCasesBase f) pct)
       | some (CoverageVal.obj (some (StatVal.num q))) =>
           -- Math.min(t, undefined) = NaN
           if q = 0 then some (testCasesBase f) else none
       | _ => some (testCasesBase f))
  else some 100

/-- The weight table hard-coded in `calculateScore` (`lib/index.js`),
in `Object.entries` (insertion) order. -/
def scoreWeights : List (String × ℚ) :=
  [("eslint", 12), ("typescript", 12), ("security", 20), ("tests", 10),
   ("complexity", 8), ("dependencies", 8), ("coverage", 8),
   ("performance", 8), ("architecture", 5), ("bug-detection", 15),
   ("test-cases", 12)]

/-- One pass of `calculateScore`'s `forEach`: accumulate
`(totalScore, maxScore)`. `maxScore += weight` happens unconditionally;
the numerator only accrues for findings that are present with
`success !== false`. -/
def scoreStep (findings : Store) (acc : Option ℚ × ℚ) (aw : String × ℚ) : Option ℚ × ℚ :=
  let t := match getk findings aw.1 with
    | some f =>
        if f.success ≠ some false then
          jadd acc.1 (jmul (jdiv (getAnalyzerScore aw.1 f) (some 100)) (some aw.2))
        else acc.1
    | none => acc.1
  (t, acc.2 + aw.2)

/-- `getGrade` of `lib/index.js`; every comparison with NaN is false,
so a NaN score grades as `F`. -/
def getGrade (score : Option ℤ) : String :=
  match score with
  | some s =>
      if s ≥ 90 then "A" else if s ≥ 80 then "B"
      else if s ≥ 70 then "C" else if s ≥ 60 then "D" else "F"
  | none => "F"

structure ScoreResult where
  overall : Option ℤ
  grade : String
  deriving Repr, DecidableEq

/-- `calculateScore` of `lib/index.js` (lines 169–203):
`overall = Math.round((totalScore / maxScore) * 100)`. -/
def calculateScore (findings : Store) : ScoreResult :=
  let acc := scoreWeights.foldl (scoreStep findings) (some 0, 0)
  let overall := jround (jmul (jdiv acc.1 (some acc.2)) (some 100))
  { overall := overall, grade := getGrade overall }

/-- Modelled from the claim's words (C1), for comparison with
`calculateScore`: both the numerator and the denominator range only
over analyzers present in both the findings map and the weight table;
an empty denominator is read as overall 0. -/
def calculateScoreClaimOverall (findings : Store) : ℤ :=
  let pres := scoreWeights.filter (fun aw => (getk findings aw.1).isSome)
  let denom := (pres.map (fun aw => aw.2)).sum
  let numer := (pres.map (fun aw =>
    ((getAnalyzerScore aw.1 ((getk findings aw.1).getD {})).getD 0) / 100 * aw.2)).sum
  if denom = 0 then 0 else ⌊numer / denom * 100 + 1/2⌋

/- ### RuleEngine (`lib/rule-engine.js`, bundled in `lib/report-generator.js`) -/

/-- A custom rule. String-valued JS properties are `Option String`
(`none` = absent); `files` is the optional glob list; `example` is kept
as its two optional members. -/
structure Rule where
  id : Option String := none
  category : Option String := none
  severity : Option String := none
  description : Option String := none
  pattern : Option String := none
  suggestion : Option String := none
  files : Option (List String) := none
  exampleBad : Option String := none
  exampleGood : Option String := none
  deriving Repr, DecidableEq

/-- JS truthiness of an optional string property (absent and `''` are
falsy). -/
def truthyStr (o : Option String) : Bool :=
  match o with
  | some s => s ≠ ""
  | none => false

/-- Structured single-rule validation errors (`validateRule` pushes
message strings; we keep their discriminating content). The
`files`-not-an-array error cannot arise in the typed model. -/
inductive RuleErr where
  | missingField (index : ℕ) (field : String)
  | invalidSeverity (id : Option String) (sev : String)
  | invalidRegex (id : Option String)
  deriving Repr, DecidableEq

/-- The four-valued severity enum of `validateRule`. -/
def validSeverities : List String := ["CRITICAL", "ERROR", "WARNING", "INFO"]

/-- The `errors` list of `validateRule(rule, index)`; `validRegex` is
the external JS regex-compilation oracle (`new RegExp` succeeding). -/
def validateRuleErrors (validRegex : String → Bool) (r : Rule) (index : ℕ) : List RuleErr :=
  let req : List (String × Option String) :=
    [("id", r.id), ("category", r.category), ("severity", r.severity),
     ("description", r.description), ("pattern", r.pattern),
     ("suggestion", r.suggestion)]
  let missing := (req.filter (fun p => ¬ truthyStr p.2)).map
    (fun p => RuleErr.missingField index p.1)
  let sevErr := match r.severity with
    | some s => if s ≠ "" ∧ ¬ validSeverities.contains s
        then [RuleErr.invalidSeverity r.id s] else []
    | none => []
  let patErr := match r.pattern with
    | some p => if p ≠ "" ∧ ¬ validRegex p
        then [RuleErr.invalidRegex r.id] else []
    | none => []
  missing ++ sevErr ++ patErr

/-- `RuleEngine.addRule`: validate, then reject a duplicate id against
the current list, then push. -/
def addRule (validRegex : String → Bool) (rules : List Rule) (r : Rule) :
    Except String (List Rule) :=
  if validateRuleErrors validRegex r rules.length ≠ [] then
    Except.error "Invalid rule"
  else if rules.any (fun er => er.id == r.id) then
    Except.error "Rule already exists"
  else
    Except.ok (rules ++ [r])

/-- `findIndex(rule => rule.id === ruleId)` as used by `removeRule`
and `updateRule`. -/
def findRuleIdx (rules : List Rule) (ruleId : String) : Option ℕ :=
  match rules with
  | [] => none
  | r :: rest =>
      if r.id = some ruleId then some 0
      else (findRuleIdx rest ruleId).map (fun i => i + 1)

/-- `RuleEngine.removeRule`: splice out the first rule whose id equals
`ruleId`, error if none. -/
def removeRule (rules : List Rule) (ruleId : String) : Except String (List Rule) :=
  match findRuleIdx rules ruleId with
  | none => Except.error "Rule not found"
  | some i => Except.ok (rules.eraseIdx i)

/-- An `updates` record for `updateRule`: per-field overrides
(`{...rule, ...updates}`). -/
structure RuleUpdates where
  id : Option String := none
  category : Option String := none
  severity : Option String := none
  description : Option String := none
  pattern : Option String := none
  suggestion : Option String := none
  files : Option (List String) := none
  exampleBad : Option String := none
  exampleGood : Option String := none
  deriving Repr, DecidableEq

/-- JS object spread `{...base, ...updates}` on rule fields. -/
def mergeRule (base : Rule) (u : RuleUpdates) : Rule :=
  { id := u.id <|> base.id,
    category := u.category <|> base.category,
    severity := u.severity <|> base.severity,
    description := u.description <|> base.description,
    pattern := u.pattern <|> base.pattern,
    suggestion := u.suggestion <|> base.suggestion,
    files := u.files <|> base.files,
    exampleBad := u.exampleBad <|> base.exampleBad,
    exampleGood := u.exampleGood <|> base.exampleGood }

/-- `RuleEngine.updateRule`: find by id, merge, re-validate the merged
rule, then commit in place. Note: no duplicate-id check. -/
def updateRule (validRegex : String → Bool) (rules : List Rule) (ruleId : String)
    (u : RuleUpdates) : Except String (List Rule) :=
  match findRuleIdx rules ruleId with
  | none => Except.error "Rule not found"
  | some i =>
      let updated := mergeRule (rules.getD i {}) u
      if validateRuleErrors validRegex updated i ≠ [] then
        Except.error "Invalid rule update"
      else
        Except.ok (rules.set i updated)

/- ### glob matching (`RuleEngine.getRulesForFile`) -/

/-- Glob tokens as the spec reads them: `**`, `*`, `?`, literal. -/
inductive GTok where
  | anySeq
  | star
  | one
  | lit (c : Char)
  deriving Repr, DecidableEq

/-- Tokenize a glob pattern; `**` is consumed greedily first, exactly
like the global `replace(/\*\*\/g, ..)` pass that runs before the
single-`*` pass. -/
def specToks : List Char → List GTok
  | [] => []
  | '*' :: '*' :: rest => GTok.anySeq :: specToks rest
  | '*' :: rest => GTok.star :: specToks rest
  | '?' :: rest => GTok.one :: specToks rest
  | c :: rest => GTok.lit c :: specToks rest
termination_by l => l.length

/-- Tokens of the regex the code actually builds. The three sequential
global replaces turn `**` first into `.*` and then the second pass
rewrites that emitted `*` again, yielding `.[^/]*`; `?` and a literal
`.` both end up as the any-character wildcard. -/
inductive CTok where
  | dot
  | noSlashStar
  | lit (c : Char)
  deriving Repr, DecidableEq

/-- Per-token effect of
`pattern.replace(/\*\*\/g,'.*').replace(/\*\/g,'[^/]*').replace(/\?/g,'.')`,
faithful for patterns whose literal characters are not further regex
metacharacters (see `plainGlob`). -/
def codeTok : GTok → List CTok
  | GTok.anySeq => [CTok.dot, CTok.noSlashStar]
  | GTok.star => [CTok.noSlashStar]
  | GTok.one => [CTok.dot]
  | GTok.lit c => if c = '.' then [CTok.dot] else [CTok.lit c]

def codeToks (p : List Char) : List CTok :=
  (specToks p).flatMap codeTok

/-- Literal characters that the translated pattern treats literally:
everything except the regex metacharacters the translation leaves
unescaped (backslash, parens, brackets, braces, caret, dollar, plus,
pipe). `*`, `?`, `.` are handled by the translation itself. -/
def plainGlobChar (c : Char) : Bool :=
  ¬ [92, 40, 41, 91, 93, 123, 125, 94, 36, 43, 124].contains c.toNat

def plainGlob (p : String) : Bool :=
  p.toList.all plainGlobChar

/-- Does the token list match some prefix of the string? (Backtracking
semantics of the translated regex at a fixed start position.) -/
def matchPre : List CTok → List Char → Bool
  | [], _ => true
  | CTok.lit _ :: _, [] => false
  | CTok.lit c :: ts, x :: xs => (x = c) && matchPre ts xs
  | CTok.dot :: _, [] => false
  | CTok.dot :: ts, _ :: xs => matchPre ts xs
  | CTok.noSlashStar :: ts, [] => matchPre ts []
  | CTok.noSlashStar :: ts, x :: xs =>
      matchPre ts (x :: xs) || (decide (x ≠ '/') && matchPre (CTok.noSlashStar :: ts) xs)
termination_by ts s => (s.length, ts.length)

/-- `regex.test(path)`: unanchored search — the pattern may match
starting at any position and need not reach the end. -/
def regexTest (toks : List CTok) (s : List Char) : Bool :=
  s.tails.any (fun t => matchPre toks t)

/-- `RuleEngine.getRulesForFile(filePath)`: a rule with no `files` (or
an empty list) always applies; otherwise some pattern's translated
regex must be found in the path. -/
def getRulesForFile (rules : List Rule) (filePath : String) : List Rule :=
  rules.filter (fun r =>
    match r.files with
    | none => true
    | some [] => true
    | some pats => pats.any (fun p => regexTest (codeToks p.toList) filePath.toList))

/-- Modelled from the claim's words (C3), for comparison with
`getRulesForFile`: anchored whole-path glob matching where `**` matches
any character sequence including separators, `*` any sequence excluding
separators, `?` exactly one character, and every other character only
itself. -/
def specMatch : List GTok → List Char → Bool
  | [], [] => true
  | [], _ :: _ => false
  | GTok.lit _ :: _, [] => false
  | GTok.lit c :: ts, x :: xs => (x = c) && specMatch ts xs
  | GTok.one :: _, [] => false
  | GTok.one :: ts, _ :: xs => specMatch ts xs
  | GTok.star :: ts, [] => specMatch ts []
  | GTok.star :: ts, x :: xs =>
      specMatch ts (x :: xs) || (decide (x ≠ '/') && specMatch (GTok.star :: ts) xs)
  | GTok.anySeq :: ts, [] => specMatch ts []
  | GTok.anySeq :: ts, x :: xs =>
      specMatch ts (x :: xs) || specMatch (GTok.anySeq :: ts) xs
termination_by ts s => (s.length, ts.length)

def specGlobMatch (p filePath : String) : Bool :=
  specMatch (specToks p.toList) filePath.toList

/- ### two-tier coverage weighting (`lib/analyzer-base.js`) -/

/-- Substring containment (`String.prototype.includes`). -/
def strContains (s pat : String) : Bool :=
  s.toList.tails.any (fun t => pat.toList.isPrefixOf t)

/-- Character-level scan for `path.basename`: keep the run after the
last separator. -/
def basenameChars : List Char → List Char → List Char
  | [], acc => acc
  | c :: rest, acc =>
      if c = '/' then basenameChars rest [] else basenameChars rest (acc ++ [c])

/-- `path.basename`: the component after the last separator. -/
def basename (s : String) : String :=
  String.mk (basenameChars s.toList [])

/-- `isCoreLogicFile` (`lib/analyzer-base.js` lines 1416–1440): core
patterns are checked before the infrastructure ones, and the default is
core logic. -/
def isCoreLogicFile (filePath : String) : Bool :=
  let fileName := basename filePath
  if strContains fileName "controller" || strContains fileName "service" then true
  else if strContains fileName "util" || strContains fileName "helper" then true
  else if strContains fileName "config" || strContains fileName "constant" then true
  else if strContains fileName "validation" then true
  else if strContains fileName "route" || strContains fileName "middleware" then false
  else true

/-- `Math.round(x * 100) / 100`. -/
def round2 (q : ℚ) : ℚ :=
  ((⌊q * 100 + 1/2⌋ : ℤ) : ℚ) / 100

structure WeightedCov where
  weightedScore : ℚ
  coreLogicCoverage : ℚ
  infrastructureCoverage : ℚ
  coreLogicFiles : ℕ
  infrastructureFiles : ℕ
  deriving Repr, DecidableEq

/-- Accumulator pass of `calculateWeightedCoverage`'s `forEach`:
`(coreSum, infraSum, coreCount, infraCount)`, skipping the `total` key
and reading `statements?.pct || 0`. -/
def weightedCovStep (acc : ℚ × ℚ × ℕ × ℕ) (entry : String × Option ℚ) : ℚ × ℚ × ℕ × ℕ :=
  if entry.1 = "total" then acc
  else
    let pct := entry.2.getD 0
    if isCoreLogicFile entry.1 then (acc.1 + pct, acc.2.1, acc.2.2.1 + 1, acc.2.2.2)
    else (acc.1, acc.2.1 + pct, acc.2.2.1, acc.2.2.2 + 1)

/-- `calculateWeightedCoverage` (`lib/analyzer-base.js` lines
1358–1411): per-class means, combined 80% core / 20% infrastructure,
2-decimal rounding on the reported numbers. The `breakdown.points`
presentation fields are omitted (nothing reads them). -/
def calculateWeightedCoverage (coverageData : List (String × Option ℚ)) : WeightedCov :=
  let acc := coverageData.foldl weightedCovStep (0, 0, 0, 0)
  let avgCore : ℚ := if acc.2.2.1 > 0 then acc.1 / (acc.2.2.1 : ℚ) else 0
  let avgInfra : ℚ := if acc.2.2.2 > 0 then acc.2.1 / (acc.2.2.2 : ℚ) else 0
  { weightedScore := round2 (avgCore * (8/10) + avgInfra * (2/10)),
    coreLogicCoverage := round2 avgCore,
    infrastructureCoverage := round2 avgInfra,
    coreLogicFiles := acc.2.2.1,
    infrastructureFiles := acc.2.2.2 }

/-- `calculateWeightedTestScore` of the alternate orchestrator copy
(`CodeReviewTool` bundled after the analyzer base in the sources):
prefer `weightedCoverage.weightedScore`, else fall back to the raw
statement coverage pushed through the ×1.1 / identity / ×0.8 curve.
A plain-number `coverage` has no `statements` member, so it falls back
to 0; an object-valued `statements` member poisons the arithmetic to
NaN (`none`). -/
def calculateWeightedTestScore (f : Finding) : Option ℚ :=
  match f.weightedCoverage with
  | some w => some (min 100 w)
  | none =>
      let sc : Option ℚ := match f.coverage with
        | none => some 0
        | some (CoverageVal.num _) => some 0
        | some (CoverageVal.obj none) => some 0
        | some (CoverageVal.obj (some (StatVal.num q))) => some q
        | some (CoverageVal.obj (some (StatVal.obj _))) => none
      match sc with
      | none => none
      | some c =>
          if c ≥ 70 then some (min 100 (c * (11/10)))
          else if c ≥ 40 then some c
          else some (max 0 (c * (8/10)))

/- ### custom-rules analyzer (`lib/analyzer-base.js`, `checkCustomRules`) -/

structure Violation where
  file : String
  line : ℕ
  rule : Option String
  severity : Option String
  message : Option String
  suggestion : Option String
  matchedText : String
  deriving Repr, DecidableEq

structure CustomRulesResult where
  success : Bool
  error : Option String := none
  violations : Option ℕ := none
  details : Option (List Violation) := none
  deriving Repr, DecidableEq

/-- 1-based line number of a match offset:
`content.substring(0, index).split('\n').length`. -/
def lineOfIndex (content : String) (idx : ℕ) : ℕ :=
  ((content.toList.take idx).filter (fun c => c = '\n')).length + 1

/-- `checkCustomRules(ruleEngine)` (`lib/analyzer-base.js` lines
611–674). `files` is the project's source files as
(relative path, content) pairs; `execMatches pattern content` is the
external JS regex engine in `gm` find-all mode, returning
(offset, matched text) pairs, or `none` when the regex construction
throws at match time (that rule is skipped with a warning). An empty
or absent rule list short-circuits to a failure finding before any
file is read. -/
def checkCustomRules (ruleEngine : Option (List Rule))
    (files : List (String × String))
    (execMatches : String → String → Option (List (ℕ × String))) : CustomRulesResult :=
  match ruleEngine with
  | none => { success := false, error := some "No custom rules defined" }
  | some rules =>
      if rules.length = 0 then
        { success := false, error := some "No custom rules defined" }
      else
        let details := files.flatMap (fun fc =>
          (getRulesForFile rules fc.1).flatMap (fun r =>
            match execMatches (r.pattern.getD "") fc.2 with
            | none => []
            | some ms => ms.map (fun im =>
                { file := fc.1, line := lineOfIndex fc.2 im.1, rule := r.id,
                  severity := r.severity, message := r.description,
                  suggestion := r.suggestion, matchedText := im.2 })))
        { success := true, violations := some details.length,
          details := some details }

/- ### report selection (`bin/cli.js` analyze action + `generateReports`) -/

/-- The reporter-list computation of the CLI `analyze` action
(`bin/cli.js` lines 128–153): an explicit `--reporters` list, then
`--ai-prompts` / `--ai-analysis` appends (starting from `[]` when no
explicit list was given), then `--no-reports` clears. -/
def cliReporters (reportersOpt : Option (List String))
    (aiPrompts aiAnalysis noReports : Bool) : Option (List String) :=
  let r2 := if aiPrompts then some (reportersOpt.getD [] ++ ["ai-prompts"]) else reportersOpt
  let r3 := if aiAnalysis then some (r2.getD [] ++ ["ai-analysis"]) else r2
  if noReports then some [] else r3

/-- The `switch (reporterName)` of `generateReports` in `lib/index.js`:
report types the renderer recognizes, mapped to the key the artifact is
stored under; unknown types are logged and skipped. -/
def reportKey (reporterName : String) : Option String :=
  if reporterName = "html" then some "html"
  else if reporterName = "json" then some "json"
  else if reporterName = "markdown" then some "markdown"
  else if reporterName = "ai-prompts" then some "aiPrompts"
  else none

/-- The keys of the `reports` object `generateReports` assembles (order
of first insertion). -/
def generateReportsKeys (enabled : List String) : List String :=
  enabled.foldl (fun acc r =>
    match reportKey r with
    | none => acc
    | some k => if acc.contains k then acc else acc ++ [k]) []

/-- `reporters: ['html']` from `getDefaultConfig` in
`lib/config-manager.js`. -/
def defaultConfigReporters : List String := ["html"]

/-- End-to-end report selection:
`options.reporters || configManager.getEnabledReporters()` feeding
`generateReports`. -/
def selectedReportKeys (cliR : Option (List String)) (configReporters : List String) :
    List String :=
  generateReportsKeys (cliR.getD configReporters)

/- ### scoring lemmas -/

/-- Does an analyzer take part in the numerator of `calculateScore`?
(present in the findings map with `success !== false`). -/
def scoreParticipates (findings : Store) (aw : String × ℚ) : Bool :=
  match getk findings aw.1 with
  | some f => f.success ≠ some false
  | none => false

/-- The numerator contribution `(analyzerScore / 100) * weight`. -/
def scoreContribution (findings : Store) (aw : String × ℚ) : ℚ :=
  ((getAnalyzerScore aw.1 ((getk findings aw.1).getD {})).getD 0) / 100 * aw.2

theorem scoreFold_spec (findings : Store) (ws : List (String × ℚ)) (t0 m0 : ℚ)
    (hdef : ∀ aw ∈ ws, ∀ f, getk findings aw.1 = some f → f.success ≠ some false →
      (getAnalyzerScore aw.1 f).isSome) :
    ws.foldl (scoreStep findings) (some t0, m0) =
      (some (t0 + ((ws.filter (scoreParticipates findings)).map
          (scoreContribution findings)).sum),
       m0 + (ws.map (fun aw => aw.2)).sum) := by
  induction ws generalizing t0 m0 with
  | nil => simp
  | cons aw rest ih =>
      have hdef' : ∀ bw ∈ rest, ∀ f, getk findings bw.1 = some f →
          f.success ≠ some false → (getAnalyzerScore bw.1 f).isSome := by
        intro bw hbw; exact hdef bw (List.mem_cons_of_mem _ hbw)
      rcases hg : getk findings aw.1 with _ | f
      · have hpart : scoreParticipates findings aw = false := by
          simp [scoreParticipates, hg]
        have hstep : scoreStep findings (some t0, m0) aw = (some t0, m0 + aw.2) := by
          simp [scoreStep, hg]
        rw [List.foldl_cons, hstep, ih _ _ hdef']
        simp [hpart, add_assoc]
      · by_cases hs : f.success = some false
        · have hpart : scoreParticipates findings aw = false := by
            simp [scoreParticipates, hg, hs]
          have hstep : scoreStep findings (some t0, m0) aw = (some t0, m0 + aw.2) := by
            simp [scoreStep, hg, hs]
          rw [List.foldl_cons, hstep, ih _ _ hdef']
          simp [hpart, add_assoc]
        · obtain ⟨s, hsc⟩ := Option.isSome_iff_exists.mp
            (hdef aw (List.mem_cons_self _ _) f hg hs)
          have hpart : scoreParticipates findings aw = true := by
            simp [scoreParticipates, hg, hs]
          have hcontrib : scoreContribution findings aw = s / 100 * aw.2 := by
            simp [scoreContribution, hg, hsc]
          have hstep : scoreStep findings (some t0, m0) aw =
              (some (t0 + s / 100 * aw.2), m0 + aw.2) := by
            simp [scoreStep, hg, hs, hsc, jadd, jmul, jdiv, jbin]
          rw [List.foldl_cons, hstep, ih _ _ hdef']
          simp [hpart, hcontrib, add_assoc]

/-- The weight-table total: 118. -/
theorem scoreWeights_total : (scoreWeights.map (fun aw => aw.2)).sum = 118 := by
  norm_num [scoreWeights]

/-- C1 (as stated) is refuted at a findings map holding one clean
eslint run: the code normalizes by all 118 weight points. -/
def exEslintOnly : Store :=
  [("eslint", { success := some true, errors := some 0, warnings := some 0 })]

/-- Claim C1 is false on the code: with only `eslint` present (and
perfect), the claim's normalization over present analyzers gives 100,
but `calculateScore` divides by the full weight total and returns 10. -/
theorem c1_counterexample :
    (calculateScore exEslintOnly).overall = some 10 ∧
    calculateScoreClaimOverall exEslintOnly = 100 ∧
    (calculateScore exEslintOnly).overall ≠ some (calculateScoreClaimOverall exEslintOnly) := by
  have h1 : (calculateScore exEslintOnly).overall = some 10 := by
    simp [calculateScore, scoreWeights, scoreStep, getk, exEslintOnly,
      getAnalyzerScore, jadd, jmul, jdiv, jbin, jround]
    norm_num [Int.floor_eq_iff]
  have h2 : calculateScoreClaimOverall exEslintOnly = 100 := by
    simp [calculateScoreClaimOverall, scoreWeights, getk, exEslintOnly,
      getAnalyzerScore]
    norm_num [Int.floor_eq_iff]
  refine ⟨h1, h2, ?_⟩
  rw [h1, h2]
  decide

/-- C1 amended: the numerator ranges over analyzers present with
`success !== false`, but the denominator is always the full weight
total (118) — absent or failed analyzers are excluded from the
numerator only. -/
theorem c1_amended (findings : Store)
    (hdef : ∀ aw ∈ scoreWeights, ∀ f, getk findings aw.1 = some f →
      f.success ≠ some false → (getAnalyzerScore aw.1 f).isSome) :
    (scoreWeights.map (fun aw => aw.2)).sum = 118 ∧
    (calculateScore findings).overall =
      some ⌊((scoreWeights.filter (scoreParticipates findings)).map
          (scoreContribution findings)).sum / 118 * 100 + 1/2⌋ := by
  refine ⟨scoreWeights_total, ?_⟩
  have h := scoreFold_spec findings scoreWeights 0 0 hdef
  unfold calculateScore
  rw [h]
  simp [jdiv, jmul, jbin, jround, scoreWeights_total]

/-- Witness for `c1_amended` at the empty findings map. -/
theorem c1_amended_witness :
    (scoreWeights.map (fun aw => aw.2)).sum = 118 ∧
    (calculateScore []).overall =
      some ⌊((scoreWeights.filter (scoreParticipates [])).map
          (scoreContribution [])).sum / 118 * 100 + 1/2⌋ :=
  c1_amended [] (by intro aw haw f hf; simp [getk] at hf)

/- ### C8: score range invariants -/

/-- Shape conditions under which an analyzer's scoring function is
well-behaved: exactly the shapes the corresponding analyzer produces
(nonnegative percentages; `complexity`'s precomputed score within
range; no number/object mismatch on the duck-typed `coverage` /
`coverage.statements` members, which otherwise yields NaN). -/
def scoreWF (analyzer : String) (f : Finding) : Prop :=
  (analyzer = "tests" →
    match f.coverage with
    | some (CoverageVal.obj _) => False
    | some (CoverageVal.num q) => 0 ≤ q
    | none => True) ∧
  (analyzer = "complexity" →
    match f.score with
    | some q => 0 ≤ q ∧ q ≤ 100
    | none => True) ∧
  (analyzer = "coverage" →
    match f.coverage with
    | some (CoverageVal.obj (some (StatVal.num q))) => q = 0
    | some (CoverageVal.obj (some (StatVal.obj pct))) => 0 ≤ pct
    | _ => True) ∧
  (analyzer = "test-cases" →
    match f.coverage with
    | some (CoverageVal.obj (some (StatVal.num q))) => q = 0
    | _ => True)


/- per-branch evaluation lemmas for `getAnalyzerScore` -/

theorem gas_eslint (f : Finding) :
    getAnalyzerScore "eslint" f =
      some (max 0 (100 - (((f.errors.getD 0 : ℕ) : ℚ) +
        ((f.warnings.getD 0 : ℕ) : ℚ) * (1/2)) * 2)) := by
  simp [getAnalyzerScore]

theorem gas_typescript (f : Finding) :
    getAnalyzerScore "typescript" f =
      ((match f.errors with
        | some e => if e > 0 then some 0 else some 100
        | none => some 100) : Option ℚ) := by
  simp [getAnalyzerScore]

theorem gas_security (f : Finding) :
    getAnalyzerScore "security" f =
      some (max 0 (100 - ((f.vulnerabilities.getD 0 : ℕ) : ℚ) * 20)) := by
  simp [getAnalyzerScore]

theorem gas_tests (f : Finding) :
    getAnalyzerScore "tests" f =
      ((match f.coverage with
        | none => some (min 100 0)
        | some (CoverageVal.num q) => some (min 100 q)
        | some (CoverageVal.obj _) => none) : Option ℚ) := by
  simp [getAnalyzerScore]

theorem gas_complexity (f : Finding) :
    getAnalyzerScore "complexity" f =
      ((match f.score with
        | some q => if q = 0 then some 100 else some q
        | none => some 100) : Option ℚ) := by
  simp [getAnalyzerScore]

theorem gas_dependencies (f : Finding) :
    getAnalyzerScore "dependencies" f =
      some (max 0 (100 - depPenalty f.circularDependencies 30
        - depPenalty f.outdatedPackages 20
        - depPenalty f.securityVulnerabilities 50)) := by
  simp [getAnalyzerScore]

theorem gas_coverage (f : Finding) :
    getAnalyzerScore "coverage" f =
      ((match f.coverage with
        | some (CoverageVal.obj (some (StatVal.obj pct))) => some (min 100 pct)
        | some (CoverageVal.obj (some (StatVal.num q))) =>
            if q = 0 then successScore f else none
        | _ => successScore f) : Option ℚ) := by
  simp [getAnalyzerScore]

theorem gas_performance (f : Finding) :
    getAnalyzerScore "performance" f =
      some (max 0 (100 - ((f.performanceIssues.getD 0 : ℕ) : ℚ) * 10)) := by
  simp [getAnalyzerScore]

theorem gas_architecture (f : Finding) :
    getAnalyzerScore "architecture" f =
      some (max 0 (100 - ((f.antiPatterns.getD 0 : ℕ) : ℚ) * 15)) := by
  simp [getAnalyzerScore]

theorem gas_bugDetection (f : Finding) :
    getAnalyzerScore "bug-detection" f =
      some (max 0 (100 - ((f.bugs.getD 0 : ℕ) : ℚ) * 25
        - ((f.potentialIssues.getD 0 : ℕ) : ℚ) * 5
        - ((f.securityRisks.getD 0 : ℕ) : ℚ) * 30
        - ((f.performanceIssues.getD 0 : ℕ) : ℚ) * 10)) := by
  simp [getAnalyzerScore]

theorem gas_testCases (f : Finding) :
    getAnalyzerScore "test-cases" f =
      jmax (some 0)
        (match f.coverage with
         | some (CoverageVal.obj (some (StatVal.obj pct))) =>
             some (min (testCasesBase f) pct)
         | some (CoverageVal.obj (some (StatVal.num q))) =>
             if q = 0 then some (testCasesBase f) else none
         | _ => some (testCasesBase f)) := by
  simp [getAnalyzerScore]

theorem gas_default (a : String) (f : Finding)
    (h1 : a ≠ "eslint") (h2 : a ≠ "typescript") (h3 : a ≠ "security")
    (h4 : a ≠ "tests") (h5 : a ≠ "complexity") (h6 : a ≠ "dependencies")
    (h7 : a ≠ "coverage") (h8 : a ≠ "performance") (h9 : a ≠ "architecture")
    (h10 : a ≠ "bug-detection") (h11 : a ≠ "test-cases") :
    getAnalyzerScore a f = some 100 := by
  simp [getAnalyzerScore, h1, h2, h3, h4, h5, h6, h7, h8, h9, h10, h11]

theorem depPenalty_nonneg (o : Option Bool) (amt : ℚ) (h : 0 ≤ amt) :
    0 ≤ depPenalty o amt := by
  rcases o with _ | b
  · simp [depPenalty]
  · rcases b <;> simp [depPenalty, h]

theorem successScore_bounds (f : Finding) :
    ∃ s, successScore f = some s ∧ 0 ≤ s ∧ s ≤ 100 := by
  unfold successScore
  rcases f.success.getD false
  · exact ⟨0, by simp, by norm_num, by norm_num⟩
  · exact ⟨100, by simp, by norm_num, by norm_num⟩

theorem testCasesBase_le (f : Finding) : testCasesBase f ≤ 100 := by
  unfold testCasesBase
  have hm : (0:ℚ) ≤ ((f.missingTests.getD 0 : ℕ) : ℚ) * 10 := by positivity
  have hp : (0:ℚ) ≤
      ((((f.testQuality.getD []).filter (fun b => b)).length : ℕ) : ℚ) * 20 := by
    positivity
  linarith

theorem getAnalyzerScore_bounds (a : String) (f : Finding) (hwf : scoreWF a f) :
    ∃ s, getAnalyzerScore a f = some s ∧ 0 ≤ s ∧ s ≤ 100 := by
  obtain ⟨hTests, hCplx, hCov, hTC⟩ := hwf
  by_cases h1 : a = "eslint"
  · subst h1
    rw [gas_eslint]
    refine ⟨_, rfl, le_max_left _ _, max_le (by norm_num) ?_⟩
    have hx : (0:ℚ) ≤ (((f.errors.getD 0 : ℕ) : ℚ) +
        ((f.warnings.getD 0 : ℕ) : ℚ) * (1/2)) * 2 := by positivity
    linarith
  by_cases h2 : a = "typescript"
  · subst h2
    rw [gas_typescript]
    rcases f.errors with _ | e
    · exact ⟨100, rfl, by norm_num, by norm_num⟩
    · by_cases he : e > 0
      · exact ⟨0, by simp [he], by norm_num, by norm_num⟩
      · exact ⟨100, by simp [he], by norm_num, by norm_num⟩
  by_cases h3 : a = "security"
  · subst h3
    rw [gas_security]
    refine ⟨_, rfl, le_max_left _ _, max_le (by norm_num) ?_⟩
    have hx : (0:ℚ) ≤ ((f.vulnerabilities.getD 0 : ℕ) : ℚ) * 20 := by positivity
    linarith
  by_cases h4 : a = "tests"
  · subst h4
    have hT := hTests rfl
    rw [gas_tests]
    rcases hc : f.coverage with _ | cv
    · exact ⟨min 100 0, rfl, by norm_num, by norm_num⟩
    · rcases cv with q | st
      · rw [hc] at hT
        exact ⟨min 100 q, rfl, le_min (by norm_num) hT, min_le_left _ _⟩
      · rw [hc] at hT
        exact absurd hT (by simp)
  by_cases h5 : a = "complexity"
  · subst h5
    have hC := hCplx rfl
    rw [gas_complexity]
    rcases hs : f.score with _ | q
    · exact ⟨100, rfl, by norm_num, by norm_num⟩
    · rw [hs] at hC
      by_cases hq : q = 0
      · exact ⟨100, by simp [hq], by norm_num, by norm_num⟩
      · exact ⟨q, by simp [hq], hC.1, hC.2⟩
  by_cases h6 : a = "dependencies"
  · subst h6
    rw [gas_dependencies]
    refine ⟨_, rfl, le_max_left _ _, max_le (by norm_num) ?_⟩
    have hd1 := depPenalty_nonneg f.circularDependencies 30 (by norm_num)
    have hd2 := depPenalty_nonneg f.outdatedPackages 20 (by norm_num)
    have hd3 := depPenalty_nonneg f.securityVulnerabilities 50 (by norm_num)
    linarith
  by_cases h7 : a = "coverage"
  · subst h7
    have hC := hCov rfl
    rw [gas_coverage]
    rcases hc : f.coverage with _ | cv
    · exact successScore_bounds f
    · rcases cv with q | st
      · exact successScore_bounds f
      · rcases st with _ | sv
        · exact successScore_bounds f
        · rcases sv with q | pct
          · rw [hc] at hC
            simp only [hC, if_pos rfl]
            exact successScore_bounds f
          · rw [hc] at hC
            exact ⟨min 100 pct, rfl, le_min (by norm_num) hC, min_le_left _ _⟩
  by_cases h8 : a = "performance"
  · subst h8
    rw [gas_performance]
    refine ⟨_, rfl, le_max_left _ _, max_le (by norm_num) ?_⟩
    have hx : (0:ℚ) ≤ ((f.performanceIssues.getD 0 : ℕ) : ℚ) * 10 := by positivity
    linarith
  by_cases h9 : a = "architecture"
  · subst h9
    rw [gas_architecture]
    refine ⟨_, rfl, le_max_left _ _, max_le (by norm_num) ?_⟩
    have hx : (0:ℚ) ≤ ((f.antiPatterns.getD 0 : ℕ) : ℚ) * 15 := by positivity
    linarith
  by_cases h10 : a = "bug-detection"
  · subst h10
    rw [gas_bugDetection]
    refine ⟨_, rfl, le_max_left _ _, max_le (by norm_num) ?_⟩
    have hb : (0:ℚ) ≤ ((f.bugs.getD 0 : ℕ) : ℚ) * 25 := by positivity
    have hp : (0:ℚ) ≤ ((f.potentialIssues.getD 0 : ℕ) : ℚ) * 5 := by positivity
    have hs : (0:ℚ) ≤ ((f.securityRisks.getD 0 : ℕ) : ℚ) * 30 := by positivity
    have hq : (0:ℚ) ≤ ((f.performanceIssues.getD 0 : ℕ) : ℚ) * 10 := by positivity
    linarith
  by_cases h11 : a = "test-cases"
  · subst h11
    have hT := hTC rfl
    rw [gas_testCases]
    have hbase := testCasesBase_le f
    rcases hc : f.coverage with _ | cv
    · exact ⟨_, by simp [jmax, jbin, hc], le_max_left _ _, max_le (by norm_num) hbase⟩
    · rcases cv with q | st
      · exact ⟨_, by simp [jmax, jbin, hc], le_max_left _ _, max_le (by norm_num) hbase⟩
      · rcases st with _ | sv
        · exact ⟨_, by simp [jmax, jbin, hc], le_max_left _ _, max_le (by norm_num) hbase⟩
        · rcases sv with q | pct
          · rw [hc] at hT
            refine ⟨_, by simp [jmax, jbin, hc, hT], le_max_left _ _,
              max_le (by norm_num) hbase⟩
          · refine ⟨max 0 (min (testCasesBase f) pct), by simp [jmax, jbin, hc],
              le_max_left _ _,
              max_le (by norm_num) (le_trans (min_le_left _ _) hbase)⟩
  rw [gas_default a f h1 h2 h3 h4 h5 h6 h7 h8 h9 h10 h11]
  exact ⟨100, rfl, by norm_num, by norm_num⟩

theorem sum_map_nonneg {α : Type} (l : List α) (g : α → ℚ)
    (h : ∀ x ∈ l, 0 ≤ g x) : 0 ≤ (l.map g).sum := by
  induction l with
  | nil => simp
  | cons a l ih =>
      simp only [List.map_cons, List.sum_cons]
      have ha := h a (List.mem_cons_self _ _)
      have hl := ih (fun x hx => h x (List.mem_cons_of_mem _ hx))
      linarith

theorem sum_map_le {α : Type} (l : List α) (f g : α → ℚ)
    (h : ∀ x ∈ l, f x ≤ g x) : (l.map f).sum ≤ (l.map g).sum := by
  induction l with
  | nil => simp
  | cons a l ih =>
      simp only [List.map_cons, List.sum_cons]
      have ha := h a (List.mem_cons_self _ _)
      have hl := ih (fun x hx => h x (List.mem_cons_of_mem _ hx))
      linarith

theorem sum_filter_map_le (l : List (String × ℚ)) (p : String × ℚ → Bool)
    (h : ∀ x ∈ l, 0 ≤ x.2) :
    ((l.filter p).map (fun aw => aw.2)).sum ≤ (l.map (fun aw => aw.2)).sum := by
  induction l with
  | nil => simp
  | cons a l ih =>
      have ha := h a (List.mem_cons_self _ _)
      have hl := ih (fun x hx => h x (List.mem_cons_of_mem _ hx))
      by_cases hp : p a
      · simp only [List.filter_cons, hp, if_pos, List.map_cons, List.sum_cons]
        linarith
      · simp only [List.filter_cons, hp, Bool.false_eq_true, if_neg,
          List.map_cons, List.sum_cons, not_false_eq_true]
        linarith

theorem calculateScore_bounds (findings : Store)
    (hwf : ∀ aw ∈ scoreWeights, ∀ f, getk findings aw.1 = some f → scoreWF aw.1 f) :
    ∃ n : ℤ, (calculateScore findings).overall = some n ∧ 0 ≤ n ∧ n ≤ 100 := by
  have hdef : ∀ aw ∈ scoreWeights, ∀ f, getk findings aw.1 = some f →
      f.success ≠ some false → (getAnalyzerScore aw.1 f).isSome := by
    intro aw haw f hf _
    obtain ⟨s, hs, _, _⟩ := getAnalyzerScore_bounds aw.1 f (hwf aw haw f hf)
    simp [hs]
  have hfold := scoreFold_spec findings scoreWeights 0 0 hdef
  have hwpos : ∀ aw ∈ scoreWeights, 0 ≤ aw.2 := by
    intro aw haw
    fin_cases haw <;> norm_num
  have hcb : ∀ aw ∈ scoreWeights.filter (scoreParticipates findings),
      0 ≤ scoreContribution findings aw ∧ scoreContribution findings aw ≤ aw.2 := by
    intro aw haw
    have haw' := List.mem_filter.mp haw
    have hpar := haw'.2
    unfold scoreParticipates at hpar
    rcases hg : getk findings aw.1 with _ | f
    · rw [hg] at hpar
      simp at hpar
    · rw [hg] at hpar
      obtain ⟨s, hs, hs0, hs100⟩ := getAnalyzerScore_bounds aw.1 f (hwf aw haw'.1 f hg)
      have hco : scoreContribution findings aw = s / 100 * aw.2 := by
        unfold scoreContribution
        rw [hg]
        simp [hs]
      rw [hco]
      constructor
      · exact mul_nonneg (div_nonneg hs0 (by norm_num)) (hwpos aw haw'.1)
      · have hdle : s / 100 ≤ 1 := (div_le_one (by norm_num)).mpr hs100
        calc s / 100 * aw.2 ≤ 1 * aw.2 :=
              mul_le_mul_of_nonneg_right hdle (hwpos aw haw'.1)
          _ = aw.2 := one_mul _
  have hT0 : 0 ≤ ((scoreWeights.filter (scoreParticipates findings)).map
      (scoreContribution findings)).sum :=
    sum_map_nonneg _ _ (fun x hx => (hcb x hx).1)
  have hTw : ((scoreWeights.filter (scoreParticipates findings)).map
        (scoreContribution findings)).sum ≤
      ((scoreWeights.filter (scoreParticipates findings)).map (fun aw => aw.2)).sum :=
    sum_map_le _ _ _ (fun x hx => (hcb x hx).2)
  have hWW := sum_filter_map_le scoreWeights (scoreParticipates findings) hwpos
  have hT118 : ((scoreWeights.filter (scoreParticipates findings)).map
      (scoreContribution findings)).sum ≤ 118 := by
    have := scoreWeights_total
    linarith
  refine ⟨⌊((scoreWeights.filter (scoreParticipates findings)).map
      (scoreContribution findings)).sum / 118 * 100 + 1/2⌋, ?_, ?_, ?_⟩
  · unfold calculateScore
    rw [hfold]
    simp [jdiv, jmul, jbin, jround, scoreWeights_total]
  · apply Int.le_floor.mpr
    push_cast
    have hd := div_nonneg hT0 (by norm_num : (0:ℚ) ≤ 118)
    nlinarith
  · have hlt : ⌊((scoreWeights.filter (scoreParticipates findings)).map
        (scoreContribution findings)).sum / 118 * 100 + 1/2⌋ < 101 := by
      apply Int.floor_lt.mpr
      push_cast
      have h1 : ((scoreWeights.filter (scoreParticipates findings)).map
          (scoreContribution findings)).sum / 118 ≤ 1 :=
        (div_le_one (by norm_num)).mpr hT118
      nlinarith
    omega

/-- C8 amended: sub-scores are rationals (not necessarily integers) in
[0, 100] for the finding shapes the analyzers produce, and the overall
score is then an integer in [0, 100]; outside those shapes the
duck-typed field reads can yield NaN. -/
theorem c8_amended :
    (∀ a f, scoreWF a f → ∃ s, getAnalyzerScore a f = some s ∧ 0 ≤ s ∧ s ≤ 100) ∧
    (∀ findings : Store,
      (∀ aw ∈ scoreWeights, ∀ f, getk findings aw.1 = some f → scoreWF aw.1 f) →
      ∃ n : ℤ, (calculateScore findings).overall = some n ∧ 0 ≤ n ∧ n ≤ 100) :=
  ⟨getAnalyzerScore_bounds, calculateScore_bounds⟩

/-- Witness for `c8_amended`: a default finding for `eslint` and the
empty findings map. -/
theorem c8_amended_witness :
    (∃ s, getAnalyzerScore "eslint" {} = some s ∧ 0 ≤ s ∧ s ≤ 100) ∧
    (∃ n : ℤ, (calculateScore []).overall = some n ∧ 0 ≤ n ∧ n ≤ 100) :=
  ⟨c8_amended.1 "eslint" {}
    (by refine ⟨?_, ?_, ?_, ?_⟩ <;> intro h <;> simp at h),
   c8_amended.2 [] (by intro aw haw f hf; simp [getk] at hf)⟩

/-- Claim C8 is false as stated: `checkTests` can report a fractional
statement coverage (e.g. `85.5` parsed from the jest table), making the
`tests` sub-score the non-integer `171/2`; and on `checkCoverage`'s
actual shape (`statements` a number, not `{pct}`) the `coverage`
sub-score is `Math.min(100, undefined)` = NaN. -/
theorem c8_counterexample :
    getAnalyzerScore "tests"
      { success := some true, coverage := some (CoverageVal.num (171/2)) } =
        some (171/2) ∧
    ((⌊(171:ℚ)/2⌋ : ℚ) ≠ (171:ℚ)/2) ∧
    getAnalyzerScore "coverage"
      { success := some true,
        coverage := some (CoverageVal.obj (some (StatVal.num 92))) } = none := by
  refine ⟨?_, ?_, ?_⟩
  · rw [gas_tests]
    norm_num
  · have hf : ⌊(171:ℚ)/2⌋ = 85 := by norm_num [Int.floor_eq_iff]
    rw [hf]
    norm_num
  · rw [gas_coverage]
    norm_num

/- ### orchestrator lemmas (C2, C9) -/

theorem alookup_mem (l : List (String × String)) (k v : String)
    (h : alookup l k = some v) : (k, v) ∈ l := by
  induction l with
  | nil => simp [alookup] at h
  | cons p rest ih =>
      rcases p with ⟨p1, p2⟩
      simp only [alookup] at h
      by_cases hp : p1 = k
      · rw [if_pos hp] at h
        cases h
        subst hp
        exact List.mem_cons_self _ _
      · rw [if_neg hp] at h
        exact List.mem_cons_of_mem _ (ih h)

theorem camelKey_mem (n v : String) (h : camelKey n = some v) :
    (n, v) ∈ analyzerKeyMap :=
  alookup_mem _ _ _ h

/-- Distinct analyzer names store under distinct keys. -/
theorem keymap_val_inj : ∀ p ∈ analyzerKeyMap, ∀ q ∈ analyzerKeyMap,
    p.2 = q.2 → p.1 = q.1 := by decide

/-- No storage key of one analyzer is the requested name of another
(other than its own). -/
theorem keymap_val_ne_key : ∀ p ∈ analyzerKeyMap, ∀ q ∈ analyzerKeyMap,
    p.2 = q.1 → p.1 = q.1 := by decide

/-- Key the orchestrator actually stores under for name `n`. -/
def effKey (impl : String → Except String Finding) (n : String) : String :=
  match impl n with
  | Except.ok _ => (camelKey n).getD n
  | Except.error _ => n

/-- Finding the orchestrator actually stores for name `n`. -/
def effVal (impl : String → Except String Finding) (n : String) : Finding :=
  match impl n with
  | Except.ok f => f
  | Except.error m => failFinding m

theorem runStep_eq_setk (impl : String → Except String Finding) (st : Store)
    (n : String) (h : (camelKey n).isSome) :
    runStep impl st n = setk st (effKey impl n) (effVal impl n) := by
  unfold runStep effKey effVal
  rcases hck : camelKey n with _ | k
  · rw [hck] at h
    simp at h
  · rcases himpl : impl n with m | f <;> simp [hck]

theorem setk_append_of_absent (st : Store) (k : String) (v : Finding)
    (h : getk st k = none) : setk st k v = st ++ [(k, v)] := by
  induction st with
  | nil => rfl
  | cons p rest ih =>
      simp only [getk] at h
      by_cases hp : p.1 = k
      · rw [if_pos hp] at h
        cases h
      · rw [if_neg hp] at h
        simp only [setk, if_neg hp, ih h, List.cons_append]

theorem getk_append_left_none (st1 st2 : Store) (k : String)
    (h : getk st1 k = none) : getk (st1 ++ st2) k = getk st2 k := by
  induction st1 with
  | nil => rfl
  | cons p rest ih =>
      simp only [getk] at h
      by_cases hp : p.1 = k
      · rw [if_pos hp] at h
        cases h
      · rw [if_neg hp] at h
        rw [List.cons_append]
        simp only [getk, if_neg hp]
        exact ih h

theorem fold_run_append (impl : String → Except String Finding)
    (names : List String) (st : Store)
    (hrec : ∀ n ∈ names, (camelKey n).isSome)
    (hnew : ∀ n ∈ names, getk st (effKey impl n) = none)
    (hnd : (names.map (effKey impl)).Nodup) :
    names.foldl (runStep impl) st =
      st ++ names.map (fun n => (effKey impl n, effVal impl n)) := by
  induction names generalizing st with
  | nil => simp
  | cons n rest ih =>
      have hckn := hrec n (List.mem_cons_self _ _)
      have hnone := hnew n (List.mem_cons_self _ _)
      rw [List.foldl_cons, runStep_eq_setk impl st n hckn,
        setk_append_of_absent st _ _ hnone]
      rw [List.map_cons] at hnd
      have hnc := List.nodup_cons.mp hnd
      have hnd' : (rest.map (effKey impl)).Nodup := hnc.2
      have hkey_ne : ∀ m ∈ rest, effKey impl m ≠ effKey impl n := by
        intro m hm heq
        exact hnc.1 (heq ▸ List.mem_map_of_mem (effKey impl) hm)
      have hnew' : ∀ m ∈ rest,
          getk (st ++ [(effKey impl n, effVal impl n)]) (effKey impl m) = none := by
        intro m hm
        rw [getk_append_left_none st _ _ (hnew m (List.mem_cons_of_mem _ hm))]
        have hne : ¬ (effKey impl n = effKey impl m) :=
          fun h => hkey_ne m hm h.symm
        simp only [getk, if_neg hne]
      rw [ih (st ++ [(effKey impl n, effVal impl n)])
        (fun m hm => hrec m (List.mem_cons_of_mem _ hm)) hnew' hnd']
      simp

theorem getk_of_mem_nodup (l : Store) : ∀ (k : String) (v : Finding),
    (k, v) ∈ l → (l.map (fun p => p.1)).Nodup → getk l k = some v := by
  induction l with
  | nil =>
      intro k v h _
      cases h
  | cons p rest ih =>
      intro k v h hnd
      rcases List.mem_cons.mp h with h | h
      · cases h
        simp [getk]
      · have hk : k ∈ rest.map (fun p => p.1) := by
          have hfk : (fun p : String × Finding => p.1) (k, v) = k := rfl
          exact hfk ▸ List.mem_map_of_mem _ h
        rw [List.map_cons] at hnd
        have hnc := List.nodup_cons.mp hnd
        have hp : p.1 ≠ k := by
          intro hpk
          exact hnc.1 (hpk ▸ hk)
        simp only [getk, if_neg hp]
        exact ih k v h hnc.2

/-- C2: partial-failure isolation of `runAnalyzers`. With N distinct
recognized analyzer names of which exactly one throws, the findings map
has exactly N keys; the failing analyzer is recorded as
`{success: false, error: message}` under its requested name, every
other analyzer still runs and its (successful) finding is stored under
its storage key; no exception escapes (`runAnalyzers` is a total
function by construction). -/
theorem c2_orchestrator (impl : String → Except String Finding)
    (names : List String) (b mb : String)
    (hnd : names.Nodup)
    (hrec : ∀ n ∈ names, (camelKey n).isSome)
    (hb : b ∈ names) (hfail : impl b = Except.error mb)
    (hok : ∀ n ∈ names, n ≠ b → ∃ f, impl n = Except.ok f ∧ f.success = some true) :
    (runAnalyzers impl names).length = names.length ∧
    getk (runAnalyzers impl names) b = some (failFinding mb) ∧
    (failFinding mb).success = some false ∧
    (∀ n ∈ names, n ≠ b → ∃ f, impl n = Except.ok f ∧
      getk (runAnalyzers impl names) ((camelKey n).getD n) = some f ∧
      f.success = some true) := by
  have effb : effKey impl b = b := by
    unfold effKey
    rw [hfail]
  have effvb : effVal impl b = failFinding mb := by
    unfold effVal
    rw [hfail]
  have effInj : ∀ n1 ∈ names, ∀ n2 ∈ names,
      effKey impl n1 = effKey impl n2 → n1 = n2 := by
    intro n1 h1 n2 h2 heq
    by_cases hb1 : n1 = b <;> by_cases hb2 : n2 = b
    · rw [hb1, hb2]
    · rw [hb1] at heq ⊢
      rw [effb] at heq
      obtain ⟨f2, hf2, _⟩ := hok n2 h2 hb2
      obtain ⟨k2, hk2⟩ := Option.isSome_iff_exists.mp (hrec n2 h2)
      have he2 : effKey impl n2 = k2 := by
        unfold effKey
        rw [hf2, hk2]
        rfl
      rw [he2] at heq
      obtain ⟨kb, hkb⟩ := Option.isSome_iff_exists.mp (hrec b hb)
      have hval := keymap_val_ne_key (n2, k2) (camelKey_mem n2 k2 hk2)
        (b, kb) (camelKey_mem b kb hkb) heq.symm
      exact hval.symm
    · rw [hb2] at heq ⊢
      rw [effb] at heq
      obtain ⟨f1, hf1, _⟩ := hok n1 h1 hb1
      obtain ⟨k1, hk1⟩ := Option.isSome_iff_exists.mp (hrec n1 h1)
      have he1 : effKey impl n1 = k1 := by
        unfold effKey
        rw [hf1, hk1]
        rfl
      rw [he1] at heq
      obtain ⟨kb, hkb⟩ := Option.isSome_iff_exists.mp (hrec b hb)
      have hval := keymap_val_ne_key (n1, k1) (camelKey_mem n1 k1 hk1)
        (b, kb) (camelKey_mem b kb hkb) heq
      exact hval
    · obtain ⟨f1, hf1, _⟩ := hok n1 h1 hb1
      obtain ⟨f2, hf2, _⟩ := hok n2 h2 hb2
      obtain ⟨k1, hk1⟩ := Option.isSome_iff_exists.mp (hrec n1 h1)
      obtain ⟨k2, hk2⟩ := Option.isSome_iff_exists.mp (hrec n2 h2)
      have he1 : effKey impl n1 = k1 := by
        unfold effKey
        rw [hf1, hk1]
        rfl
      have he2 : effKey impl n2 = k2 := by
        unfold effKey
        rw [hf2, hk2]
        rfl
      rw [he1, he2] at heq
      exact keymap_val_inj (n1, k1) (camelKey_mem n1 k1 hk1)
        (n2, k2) (camelKey_mem n2 k2 hk2) heq
  have hndeff : (names.map (effKey impl)).Nodup := hnd.map_on effInj
  have hrun : runAnalyzers impl names =
      names.map (fun n => (effKey impl n, effVal impl n)) := by
    unfold runAnalyzers
    rw [fold_run_append impl names [] hrec (fun n _ => rfl) hndeff]
    rfl
  have hkeys : ((names.map (fun n => (effKey impl n, effVal impl n))).map
      (fun p => p.1)) = names.map (effKey impl) := by
    rw [List.map_map]
    rfl
  refine ⟨?_, ?_, rfl, ?_⟩
  · rw [hrun, List.length_map]
  · rw [hrun]
    apply getk_of_mem_nodup
    · have hmem := List.mem_map_of_mem
        (fun n => (effKey impl n, effVal impl n)) hb
      simp only [effb, effvb] at hmem
      exact hmem
    · rw [hkeys]
      exact hndeff
  · intro n hn hne
    obtain ⟨f, hf, hsucc⟩ := hok n hn hne
    refine ⟨f, hf, ?_, hsucc⟩
    obtain ⟨k, hk⟩ := Option.isSome_iff_exists.mp (hrec n hn)
    have he : effKey impl n = (camelKey n).getD n := by
      unfold effKey
      rw [hf]
    have hv : effVal impl n = f := by
      unfold effVal
      rw [hf]
    rw [hrun]
    apply getk_of_mem_nodup
    · have hmem := List.mem_map_of_mem
        (fun n => (effKey impl n, effVal impl n)) hn
      simp only [he, hv] at hmem
      exact hmem
    · rw [hkeys]
      exact hndeff

/-- Concrete two-analyzer scenario for the `c2_orchestrator` witness:
`typescript` throws, `eslint` succeeds. -/
def implC2 : String → Except String Finding :=
  fun n => if n = "typescript" then Except.error "boom"
    else Except.ok { success := some true }

/-- Witness for `c2_orchestrator`. -/
theorem c2_orchestrator_witness :
    (runAnalyzers implC2 ["eslint", "typescript"]).length = 2 ∧
    getk (runAnalyzers implC2 ["eslint", "typescript"]) "typescript" =
      some (failFinding "boom") ∧
    (failFinding "boom").success = some false ∧
    (∀ n ∈ ["eslint", "typescript"], n ≠ "typescript" →
      ∃ f, implC2 n = Except.ok f ∧
        getk (runAnalyzers implC2 ["eslint", "typescript"])
          ((camelKey n).getD n) = some f ∧
        f.success = some true) := by
  have h := c2_orchestrator implC2 ["eslint", "typescript"] "typescript" "boom"
    (by decide)
    (by intro n hn; fin_cases hn <;> decide)
    (by decide)
    (by rfl)
    (by
      intro n hn hne
      fin_cases hn
      · exact ⟨{ success := some true }, rfl, rfl⟩
      · exact absurd rfl hne)
  simpa using h

/-- Keys that are never a storage key of a successful run can only ever
hold catch-block failure records. -/
theorem getk_fold_fail_only (impl : String → Except String Finding) (k : String)
    (hk : ∀ p ∈ analyzerKeyMap, p.2 ≠ k) (names : List String) :
    ∀ st : Store, (∀ f, getk st k = some f → f.success = some false) →
      ∀ f, getk (names.foldl (runStep impl) st) k = some f →
        f.success = some false := by
  induction names with
  | nil => exact fun st hst => hst
  | cons n rest ih =>
      intro st hst
      rw [List.foldl_cons]
      apply ih
      intro f' hf'
      unfold runStep at hf'
      rcases hck : camelKey n with _ | k'
      · rw [hck] at hf'
        exact hst f' hf'
      · rw [hck] at hf'
        rcases himpl : impl n with m | g
        · rw [himpl] at hf'
          by_cases hnk : n = k
          · subst hnk
            rw [getk_setk_same] at hf'
            cases hf'
            rfl
          · rw [getk_setk_other _ _ _ _ (fun h => hnk h.symm)] at hf'
            exact hst f' hf'
        · rw [himpl] at hf'
          have hk'k : k ≠ k' :=
            fun h => hk (n, k') (camelKey_mem n k' hck) h.symm
          rw [getk_setk_other _ _ _ _ hk'k] at hf'
          exact hst f' hf'

/-- C9: camelCase storage-key mismatch. Successful runs of
`custom-rules` / `bug-detection` / `test-cases` are stored under
`customRules` / `bugDetection` / `testCases`, while thrown runs are
stored under the requested (dashed) name; hence the weight-table keys
`bug-detection` and `test-cases` can only ever hold failure records
(`success: false`) in any findings map the orchestrator produces. -/
theorem c9_key_mismatch :
    (camelKey "custom-rules" = some "customRules" ∧
      "customRules" ≠ "custom-rules") ∧
    (camelKey "bug-detection" = some "bugDetection" ∧
      "bugDetection" ≠ "bug-detection") ∧
    (camelKey "test-cases" = some "testCases" ∧ "testCases" ≠ "test-cases") ∧
    (∀ impl f, impl "custom-rules" = Except.ok f →
      runAnalyzers impl ["custom-rules"] = [("customRules", f)]) ∧
    (∀ impl f, impl "bug-detection" = Except.ok f →
      runAnalyzers impl ["bug-detection"] = [("bugDetection", f)]) ∧
    (∀ impl f, impl "test-cases" = Except.ok f →
      runAnalyzers impl ["test-cases"] = [("testCases", f)]) ∧
    (∀ impl m, impl "bug-detection" = Except.error m →
      runAnalyzers impl ["bug-detection"] = [("bug-detection", failFinding m)]) ∧
    (∀ impl m, impl "test-cases" = Except.error m →
      runAnalyzers impl ["test-cases"] = [("test-cases", failFinding m)]) ∧
    (∀ impl names f,
      getk (runAnalyzers impl names) "bug-detection" = some f →
        f.success = some false) ∧
    (∀ impl names f,
      getk (runAnalyzers impl names) "test-cases" = some f →
        f.success = some false) := by
  refine ⟨⟨by decide, by decide⟩, ⟨by decide, by decide⟩, ⟨by decide, by decide⟩,
    ?_, ?_, ?_, ?_, ?_, ?_, ?_⟩
  · intro impl f h
    simp [runAnalyzers, runStep, camelKey, alookup, analyzerKeyMap, h, setk]
  · intro impl f h
    simp [runAnalyzers, runStep, camelKey, alookup, analyzerKeyMap, h, setk]
  · intro impl f h
    simp [runAnalyzers, runStep, camelKey, alookup, analyzerKeyMap, h, setk]
  · intro impl m h
    simp [runAnalyzers, runStep, camelKey, alookup, analyzerKeyMap, h, setk]
  · intro impl m h
    simp [runAnalyzers, runStep, camelKey, alookup, analyzerKeyMap, h, setk]
  · intro impl names f hf
    exact getk_fold_fail_only impl "bug-detection" (by decide) names []
      (by intro f' hf'; cases hf') f hf
  · intro impl names f hf
    exact getk_fold_fail_only impl "test-cases" (by decide) names []
      (by intro f' hf'; cases hf') f hf

/-- Concrete scenario for the `c9_key_mismatch` witness:
`bug-detection` throws, everything else succeeds. -/
def implC9 : String → Except String Finding :=
  fun n => if n = "bug-detection" then Except.error "boom"
    else Except.ok { success := some true }

/-- Witness for `c9_key_mismatch`. -/
theorem c9_key_mismatch_witness :
    runAnalyzers implC9 ["custom-rules"] =
      [("customRules", { success := some true })] ∧
    runAnalyzers implC9 ["bug-detection"] =
      [("bug-detection", failFinding "boom")] ∧
    (failFinding "boom").success = some false := by
  obtain ⟨k1, k2, k3, ok1, ok2, ok3, er1, er2, inv1, inv2⟩ := c9_key_mismatch
  refine ⟨ok1 implC9 _ rfl, er1 implC9 "boom" rfl, ?_⟩
  apply inv1 implC9 ["bug-detection"] (failFinding "boom")
  rw [er1 implC9 "boom" rfl]
  simp [getk]

/- ### C3: glob matching -/

/-- A rule with the single pattern `"a"`. -/
def ruleSub : Rule := { id := some "sub", files := some ["a"] }

/-- A rule with the single pattern `"a**b"`. -/
def ruleDS : Rule := { id := some "ds", files := some ["a**b"] }

/-- Claim C3 is false on the code in both directions: the translated
regex is searched unanchored, so pattern `"a"` matches path `"ba"`
although the glob does not; and the sequential replaces turn `**` into
`.[^/]*` (one character plus a separator-free run), so `"a**b"` fails
to match `"a/x/b"` although `**` per the claim spans separators. -/
theorem c3_counterexample :
    (ruleSub ∈ getRulesForFile [ruleSub] "ba" ∧ specGlobMatch "a" "ba" = false) ∧
    (ruleDS ∉ getRulesForFile [ruleDS] "a/x/b" ∧
      specGlobMatch "a**b" "a/x/b" = true) := by
  refine ⟨⟨?_, ?_⟩, ?_, ?_⟩
  · simp [getRulesForFile, ruleSub, codeToks, specToks, codeTok, regexTest,
      matchPre, List.tails]
  · simp [specGlobMatch, specToks, specMatch]
  · simp [getRulesForFile, ruleDS, codeToks, specToks, codeTok, regexTest,
      matchPre, List.tails]
  · simp [specGlobMatch, specToks, specMatch]

/-- C3 amended: a rule with no `files` (or an empty list) is included
for every path; a rule with patterns is included exactly when some
pattern's translated regex (`**` → `.[^/]*`, `*` → `[^/]*`, `?` and `.`
→ any single character, other plain characters literal) matches some
substring of the path — i.e. a prefix of some suffix — rather than the
whole path. -/
theorem c3_amended (rules : List Rule) (filePath : String) (r : Rule)
    (hplain : ∀ pats, r.files = some pats → ∀ p ∈ pats, plainGlob p = true) :
    (r.files = none ∨ r.files = some [] →
      (r ∈ getRulesForFile rules filePath ↔ r ∈ rules)) ∧
    (∀ pats, r.files = some pats → pats ≠ [] →
      (r ∈ getRulesForFile rules filePath ↔
        r ∈ rules ∧ ∃ p ∈ pats, ∃ t, t <:+ filePath.toList ∧
          matchPre (codeToks p.toList) t = true)) := by
  constructor
  · intro hcase
    rcases hcase with hn | he
    · unfold getRulesForFile
      rw [List.mem_filter]
      simp [hn]
    · unfold getRulesForFile
      rw [List.mem_filter]
      simp [he]
  · intro pats hp hne
    unfold getRulesForFile
    rw [List.mem_filter]
    rcases pats with _ | ⟨p0, ps⟩
    · exact absurd rfl hne
    · rw [hp]
      simp only [List.any_eq_true, regexTest, List.mem_tails]

/-- Witness for `c3_amended`: the pattern list `["a"]` against path
`"ba"`. -/
theorem c3_amended_witness :
    ruleSub ∈ getRulesForFile [ruleSub] "ba" ↔
      ruleSub ∈ [ruleSub] ∧ ∃ p ∈ ["a"], ∃ t, t <:+ "ba".toList ∧
        matchPre (codeToks p.toList) t = true :=
  (c3_amended [ruleSub] "ba" ruleSub
    (by
      intro pats hp p hpm
      obtain rfl : pats = ["a"] := by simpa [ruleSub] using hp.symm
      fin_cases hpm
      decide)).2 ["a"] rfl (by decide)

/- ### C4: two-tier coverage weighting -/

/-- The per-file statement percentage read `statements?.pct || 0`. -/
def covPct (e : String × Option ℚ) : ℚ := e.2.getD 0

/-- The entries `calculateWeightedCoverage` iterates (everything but
the `total` key). -/
def covEntries (data : List (String × Option ℚ)) : List (String × Option ℚ) :=
  data.filter (fun e => e.1 ≠ "total")

def coreEntries (data : List (String × Option ℚ)) : List (String × Option ℚ) :=
  (covEntries data).filter (fun e => isCoreLogicFile e.1)

def infraEntries (data : List (String × Option ℚ)) : List (String × Option ℚ) :=
  (covEntries data).filter (fun e => ¬ isCoreLogicFile e.1)

/-- Mean statement coverage of a class of files (0 for an empty
class). -/
def meanPct (l : List (String × Option ℚ)) : ℚ :=
  if l.length = 0 then 0 else ((l.map covPct).sum) / (l.length : ℚ)

theorem weightedCovFold_spec (data : List (String × Option ℚ)) (c0 i0 : ℚ)
    (n0 m0 : ℕ) :
    data.foldl weightedCovStep (c0, i0, n0, m0) =
      (c0 + ((coreEntries data).map covPct).sum,
       i0 + ((infraEntries data).map covPct).sum,
       n0 + (coreEntries data).length,
       m0 + (infraEntries data).length) := by
  induction data generalizing c0 i0 n0 m0 with
  | nil => simp [coreEntries, infraEntries, covEntries]
  | cons e rest ih =>
      rw [List.foldl_cons]
      by_cases ht : e.1 = "total"
      · have hstep : weightedCovStep (c0, i0, n0, m0) e = (c0, i0, n0, m0) := by
          simp [weightedCovStep, ht]
        have hcore : coreEntries (e :: rest) = coreEntries rest := by
          simp [coreEntries, covEntries, List.filter_cons, ht]
        have hinfra : infraEntries (e :: rest) = infraEntries rest := by
          simp [infraEntries, covEntries, List.filter_cons, ht]
        rw [hstep, ih, hcore, hinfra]
      · by_cases hc : isCoreLogicFile e.1
        · have hstep : weightedCovStep (c0, i0, n0, m0) e =
              (c0 + covPct e, i0, n0 + 1, m0) := by
            simp [weightedCovStep, ht, hc, covPct]
          have hcore : coreEntries (e :: rest) = e :: coreEntries rest := by
            simp [coreEntries, covEntries, List.filter_cons, ht, hc]
          have hinfra : infraEntries (e :: rest) = infraEntries rest := by
            simp [infraEntries, covEntries, List.filter_cons, ht, hc]
          rw [hstep, ih, hcore, hinfra]
          simp only [List.map_cons, List.sum_cons, List.length_cons,
            Prod.mk.injEq]
          exact ⟨by ring, trivial, by omega, trivial⟩
        · have hstep : weightedCovStep (c0, i0, n0, m0) e =
              (c0, i0 + covPct e, n0, m0 + 1) := by
            simp [weightedCovStep, ht, hc, covPct]
          have hcore : coreEntries (e :: rest) = coreEntries rest := by
            simp [coreEntries, covEntries, List.filter_cons, ht, hc]
          have hinfra : infraEntries (e :: rest) = e :: infraEntries rest := by
            simp [infraEntries, covEntries, List.filter_cons, ht, hc]
          rw [hstep, ih, hcore, hinfra]
          simp only [List.map_cons, List.sum_cons, List.length_cons,
            Prod.mk.injEq]
          exact ⟨trivial, by ring, trivial, by omega⟩

/-- The concrete data set of the claim's example: one core-logic file
at 90%, one infrastructure file at 50%. -/
def exCov9050 : List (String × Option ℚ) :=
  [("user-service.js", some 90), ("auth-route.js", some 50)]

/-- Three core-logic files at 1%, 1%, 2%: the mean is 4/3, and the
2-decimal rounding makes the reported weighted score differ from the
claim's exact expression. -/
def exCovThirds : List (String × Option ℚ) :=
  [("a-service.js", some 1), ("b-service.js", some 1), ("c-service.js", some 2)]

/-- Claim C4 is false as stated: the code rounds the weighted score to
2 decimals (`Math.round(x*100)/100`), so on `exCovThirds` it reports
107/100 while `0.8 × mean(core) + 0.2 × mean(infra)` is 16/15. -/
theorem c4_counterexample :
    (calculateWeightedCoverage exCovThirds).weightedScore = 107/100 ∧
    meanPct (coreEntries exCovThirds) * (8/10) +
      meanPct (infraEntries exCovThirds) * (2/10) = 16/15 ∧
    (107/100 : ℚ) ≠ 16/15 := by
  have h1 : isCoreLogicFile "a-service.js" = true := by decide
  have h2 : isCoreLogicFile "b-service.js" = true := by decide
  have h3 : isCoreLogicFile "c-service.js" = true := by decide
  refine ⟨?_, ?_, by norm_num⟩
  · simp [calculateWeightedCoverage, weightedCovStep, exCovThirds, h1, h2, h3,
      round2]
    norm_num [Int.floor_eq_iff]
  · simp [meanPct, coreEntries, infraEntries, covEntries, exCovThirds,
      h1, h2, h3, covPct]
    norm_num

/-- C4 amended: the weighted coverage score is
`round2(0.8 × mean(core) + 0.2 × mean(infra))` — the claim's expression
rounded to two decimals — with the file classification checking the
core-logic name patterns before the route/middleware ones and
defaulting to core logic; the claim's 90/50 example does yield 82. -/
theorem c4_amended (data : List (String × Option ℚ)) :
    (calculateWeightedCoverage data).weightedScore =
      round2 (meanPct (coreEntries data) * (8/10) +
        meanPct (infraEntries data) * (2/10)) ∧
    (calculateWeightedCoverage exCov9050).weightedScore = 82 ∧
    isCoreLogicFile "user-service.js" = true ∧
    isCoreLogicFile "auth-route.js" = false ∧
    isCoreLogicFile "other.js" = true := by
  refine ⟨?_, ?_, by decide, by decide, by decide⟩
  · unfold calculateWeightedCoverage
    rw [weightedCovFold_spec]
    have havg : ∀ l : List (String × Option ℚ),
        (if 0 + l.length > 0 then
          (0 + (l.map covPct).sum) / ((0 + l.length : ℕ) : ℚ) else 0) =
          meanPct l := by
      intro l
      unfold meanPct
      rcases Nat.eq_zero_or_pos l.length with hz | hp
      · simp [hz]
      · have hnz : ¬ l.length = 0 := Nat.pos_iff_ne_zero.mp hp
        simp [hnz, Nat.pos_iff_ne_zero.mpr hnz]
    simp only [zero_add] at havg ⊢
    rw [show ∀ l : List (String × Option ℚ), (if l.length > 0 then
        ((l.map covPct).sum) / ((l.length : ℕ) : ℚ) else 0) = meanPct l
      from by simpa using havg]
    rw [show ∀ l : List (String × Option ℚ), (if l.length > 0 then
        ((l.map covPct).sum) / ((l.length : ℕ) : ℚ) else 0) = meanPct l
      from by simpa using havg]
  · have h1 : isCoreLogicFile "user-service.js" = true := by decide
    have h2 : isCoreLogicFile "auth-route.js" = false := by decide
    simp [calculateWeightedCoverage, weightedCovStep, exCov9050, h1, h2, round2]
    norm_num [Int.floor_eq_iff]

/- ### C5: fallback coverage curve -/

/-- C5: when `weightedCoverage` is unavailable, the test sub-score is
the raw statement coverage pushed through the convex curve — boosted
×1.1 (clamped at 100) at ≥ 70, unchanged on [40, 70), and ×0.8 below
40 (for nonnegative coverage the code's `Math.max(0, ·)` is the
identity there). Implemented by `calculateWeightedTestScore` in the
alternate orchestrator copy bundled with the sources. -/
theorem c5_coverage_curve (c : ℚ) (h0 : 0 ≤ c) :
    calculateWeightedTestScore
      { weightedCoverage := none,
        coverage := some (CoverageVal.obj (some (StatVal.num c))) } =
      some (if 70 ≤ c then min 100 (c * (11/10))
        else if 40 ≤ c then c else c * (8/10)) := by
  unfold calculateWeightedTestScore
  by_cases h70 : (70:ℚ) ≤ c
  · simp [h70, ge_iff_le]
  · by_cases h40 : (40:ℚ) ≤ c
    · simp [h70, h40, ge_iff_le]
    · have hmax : max 0 (c * (8/10)) = c * (8/10) :=
        max_eq_right (mul_nonneg h0 (by norm_num))
      simp [h70, h40, ge_iff_le, hmax]

/-- Witness for `c5_coverage_curve` at coverage 80 (sub-score 88). -/
theorem c5_coverage_curve_witness :
    (0:ℚ) ≤ 80 ∧
    calculateWeightedTestScore
      { weightedCoverage := none,
        coverage := some (CoverageVal.obj (some (StatVal.num 80))) } =
      some (if (70:ℚ) ≤ 80 then min 100 (80 * (11/10))
        else if (40:ℚ) ≤ 80 then 80 else 80 * (8/10)) :=
  ⟨by norm_num, c5_coverage_curve 80 (by norm_num)⟩

/- ### C6: default report selection -/

/-- C6 evaluated at the failing input: with no explicit reporter list,
plain mode renders exactly the primary (html) report, but exploratory
mode (`--ai-prompts`) builds its reporter list as `[] ++ ['ai-prompts']`
and therefore renders only the AI narrative — the html report is
dropped, although the CLI's own log line promises
"HTML + AI Summary MD". -/
theorem c6_report_defaults :
    selectedReportKeys (cliReporters none false false false)
      defaultConfigReporters = ["html"] ∧
    selectedReportKeys (cliReporters none true false false)
      defaultConfigReporters = ["aiPrompts"] ∧
    "html" ∉ selectedReportKeys (cliReporters none true false false)
      defaultConfigReporters := by
  refine ⟨?_, ?_, ?_⟩ <;> decide

/- ### C7: rule mutation operations -/

/-- A fully valid rule with id `i`. -/
def goodRule (i : String) : Rule :=
  { id := some i, category := some "security", severity := some "ERROR",
    description := some "d", pattern := some "p", suggestion := some "s" }

/-- Claim C7 is false for `updateRule`: updating rule `"b"`'s id to
`"a"` succeeds (no duplicate-id check) and leaves the list with two
rules of id `"a"`. -/
theorem c7_counterexample :
    updateRule (fun _ => true) [goodRule "a", goodRule "b"] "b"
      { id := some "a" } = Except.ok [goodRule "a", goodRule "a"] ∧
    ([goodRule "a", goodRule "a"].map Rule.id) = [some "a", some "a"] := by
  constructor
  · rfl
  · rfl

/-- C7 amended: `addRule` re-validates and rejects duplicate ids;
`updateRule` re-validates the merged rule and commits it in place (so a
successful update or remove touches no other rule, and a failed one
returns an error without producing a new list) — but `updateRule`
performs no duplicate-id check. -/
theorem c7_amended :
    (∀ vr rules r res, addRule vr rules r = Except.ok res →
      res = rules ++ [r] ∧ validateRuleErrors vr r rules.length = [] ∧
      ∀ er ∈ rules, er.id ≠ r.id) ∧
    (∀ vr rules r, (∃ er ∈ rules, er.id = r.id) →
      ∃ e, addRule vr rules r = Except.error e) ∧
    (∀ vr rules ruleId u res, updateRule vr rules ruleId u = Except.ok res →
      ∃ i, findRuleIdx rules ruleId = some i ∧
        validateRuleErrors vr (mergeRule (rules.getD i {}) u) i = [] ∧
        res = rules.set i (mergeRule (rules.getD i {}) u)) ∧
    (∀ rules ruleId res, removeRule rules ruleId = Except.ok res →
      ∃ i, findRuleIdx rules ruleId = some i ∧ res = rules.eraseIdx i) := by
  refine ⟨?_, ?_, ?_, ?_⟩
  · intro vr rules r res h
    unfold addRule at h
    by_cases hv : validateRuleErrors vr r rules.length ≠ []
    · rw [if_pos hv] at h
      cases h
    · rw [if_neg hv] at h
      by_cases ha : rules.any (fun er => er.id == r.id)
      · rw [if_pos ha] at h
        cases h
      · rw [if_neg ha] at h
        cases h
        refine ⟨rfl, not_not.mp hv, ?_⟩
        intro er her hid
        exact ha (List.any_eq_true.mpr ⟨er, her, by simp [hid]⟩)
  · intro vr rules r hdup
    obtain ⟨er, her, hid⟩ := hdup
    unfold addRule
    by_cases hv : validateRuleErrors vr r rules.length ≠ []
    · rw [if_pos hv]
      exact ⟨_, rfl⟩
    · rw [if_neg hv]
      have ha : rules.any (fun er => er.id == r.id) :=
        List.any_eq_true.mpr ⟨er, her, by simp [hid]⟩
      rw [if_pos ha]
      exact ⟨_, rfl⟩
  · intro vr rules ruleId u res h
    unfold updateRule at h
    rcases hidx : findRuleIdx rules ruleId with _ | i
    · rw [hidx] at h
      cases h
    · rw [hidx] at h
      dsimp only at h
      by_cases hv : validateRuleErrors vr (mergeRule (rules.getD i {}) u) i ≠ []
      · rw [if_pos hv] at h
        cases h
      · rw [if_neg hv] at h
        cases h
        exact ⟨i, rfl, not_not.mp hv, rfl⟩
  · intro rules ruleId res h
    unfold removeRule at h
    rcases hidx : findRuleIdx rules ruleId with _ | i
    · rw [hidx] at h
      cases h
    · rw [hidx] at h
      cases h
      exact ⟨i, rfl, rfl⟩

/-- Witness for `c7_amended`: a successful `addRule` into the empty
list. -/
theorem c7_amended_witness :
    ([goodRule "a"] : List Rule) = [] ++ [goodRule "a"] ∧
    validateRuleErrors (fun _ => true) (goodRule "a") ([] : List Rule).length = [] ∧
    (∀ er ∈ ([] : List Rule), er.id ≠ (goodRule "a").id) :=
  c7_amended.1 (fun _ => true) [] (goodRule "a") [goodRule "a"] (by rfl)

/- ### C10: custom-rules analyzer with empty rule list -/

/-- C10: with an absent rule engine or an empty rule list,
`checkCustomRules` returns `{success: false, error: 'No custom rules
defined'}` whatever the project's files and regex engine are — no file
is scanned, and the run is a failure rather than a success with zero
violations. -/
theorem c10_empty_rules (files : List (String × String))
    (execMatches : String → String → Option (List (ℕ × String))) :
    checkCustomRules none files execMatches =
      { success := false, error := some "No custom rules defined" } ∧
    checkCustomRules (some []) files execMatches =
      { success := false, error := some "No custom rules defined" } :=
  ⟨rfl, rfl⟩
